import Mathlib

/-!
Verification of the task-creation-with-best-effort-enrichment flow of the
task-management application.

The embedding follows `supabase/functions/create-task-with-ai/index.ts`
(the task creation orchestrator) and `supabase/migrations/1_init_tasks.sql`
(the tasks table schema).  The relational store is modelled as a list of
task rows with Postgres insert/update semantics restricted to the columns
and constraints that the migration declares; the external collaborators
(identity service, OpenAI completion endpoint, store transport) are
modelled as resolved outcomes carried in an environment record, since the
handler observes each of them exactly once per request.
-/

namespace TaskApp

/-- The five valid labels, from the migration check constraint and the
`validLabels` array in the handler. -/
def validLabels : List String := ["work", "personal", "priority", "shopping", "home"]

/-- A row of `public.tasks` (migration `1_init_tasks.sql`).  Nullable
columns are `Option`; timestamps are abstracted to `Nat` instants. -/
structure Task where
  task_id : Nat
  user_id : Option String
  title : Option String
  description : Option String
  image_url : Option String
  label : Option String
  due_date : Option Nat
  completed : Bool
  created_at : Nat
  updated_at : Nat
deriving DecidableEq, Repr

/-- The SQL check constraint on `label`: a NULL label passes the check
(SQL three-valued logic), a non-null label must be one of the five. -/
def labelCheckOk : Option String → Bool
  | none => true
  | some l => validLabels.contains l

/-- Store-level failures of the Postgres operations on `public.tasks`. -/
inductive StoreErr
  | notNullViolation
  | checkViolation
  | duplicateKey
  | notFound
  | unavailable
deriving DecidableEq, Repr

/-- Postgres semantics of the handler's insert
(`.from("tasks").insert({title, description, completed, user_id})`):
the NOT NULL constraint on `title`, the check constraint on `label`, and
primary-key uniqueness of `task_id`; on success the new row is appended. -/
def dbInsert (db : List Task) (t : Task) : Except StoreErr (List Task) :=
  if t.title = none then .error .notNullViolation
  else if ¬ labelCheckOk t.label then .error .checkViolation
  else if db.any (fun u => u.task_id == t.task_id) then .error .duplicateKey
  else .ok (db ++ [t])

/-- Postgres semantics of the handler's label update
(`.from("tasks").update({label}).eq("task_id", id).select().single()`):
only the `label` column is written (the migration installs no trigger on
`public.tasks`, so `updated_at` keeps its value); `.single()` fails with
no matching row.  Returns the updated row and the new table state. -/
def dbUpdateLabel (db : List Task) (id : Nat) (l : String) :
    Except StoreErr (Task × List Task) :=
  if ¬ labelCheckOk (some l) then .error .checkViolation
  else
    match db.find? (fun t => t.task_id == id) with
    | none => .error .notFound
    | some t =>
      let t1 := { t with label := some l }
      .ok (t1, db.map (fun u => if u.task_id == id then t1 else u))

/-- The JSON request body after `await req.json()`: either field may be
absent from the JSON object. -/
structure ReqBody where
  title : Option String
  description : Option String
deriving DecidableEq, Repr

/-- An inbound request: `body = none` models a body that is not valid JSON
(so that `req.json()` throws); `authHeader` is the `Authorization` header. -/
structure Request where
  body : Option ReqBody
  authHeader : Option String
deriving DecidableEq, Repr

/-- The environment a single invocation of the handler observes:
configuration, the identity verifier's answer for the request's
credential, the resolved outcome of the OpenAI completion call
(`.error` models the call throwing, `.ok c` a completion whose
`message.content` is `c`, possibly null), transport availability of the
two store calls, the clock, and the generated row id. -/
structure Env where
  openaiApiKey : Option String
  enableOpenaiEnv : Option String
  authUser : Option String
  openaiResult : Except Unit (Option String)
  insertOk : Bool
  updateOk : Bool
  now : Nat
  freshId : Nat

/-- `const ENABLE_OPENAI = Deno.env.get("ENABLE_OPENAI") !== "false"`. -/
def ENABLE_OPENAI : Option String → Bool
  | some "false" => false
  | _ => true

/-- JavaScript truthiness of `OPENAI_API_KEY` in the guard
`if (OPENAI_API_KEY && ENABLE_OPENAI)`: an unset or empty string key is
falsy. -/
def keyTruthy : Option String → Bool
  | none => false
  | some s => ¬ (s = "")

/-- JavaScript `String.prototype.toLowerCase` on one character: the
ASCII upper-case letters map to their lower-case counterparts (the label
vocabulary is ASCII, so the Unicode cases play no role here). -/
def jsCharToLower (c : Char) : Char :=
  if 'A' ≤ c ∧ c ≤ 'Z' then Char.ofNat (c.toNat + 32) else c

/-- JavaScript `toLowerCase()` over the whole string. -/
def jsToLower (s : String) : String := String.mk (s.data.map jsCharToLower)

/-- JavaScript `trim()`: strip whitespace from both ends (the relevant
whitespace characters being space, tab, carriage return and newline). -/
def jsTrim (s : String) : String :=
  String.mk (((s.data.dropWhile Char.isWhitespace).reverse.dropWhile
    Char.isWhitespace).reverse)

/-- `content?.toLowerCase().trim()` followed by
`validLabels.includes(suggestedLabel) ? suggestedLabel : null`:
a null content yields no label, otherwise the WHOLE content is
lower-cased and trimmed and accepted only if it equals one of the five
labels. -/
def suggestLabelFromContent : Option String → Option String
  | none => none
  | some c =>
    if validLabels.contains (jsTrim (jsToLower c)) then
      some (jsTrim (jsToLower c))
    else none

/-- The distinguishable failures the handler's outer catch serialises
into `{ "error": error.message }`. -/
inductive HandlerError
  | bodyParse
  | noAuthHeader
  | noUserFound
  | insertFailed (e : StoreErr)
deriving DecidableEq, Repr

/-- The JSON body of the HTTP response: the created (possibly enriched)
task, or an error object. -/
inductive ResponseBody
  | task (t : Task)
  | error (e : HandlerError)
deriving DecidableEq, Repr

/-- An HTTP response of the handler. -/
structure Response where
  status : Nat
  body : ResponseBody
deriving DecidableEq, Repr

/-- Success responses are built with no explicit status (HTTP 200). -/
def okResponse (t : Task) : Response := { status := 200, body := .task t }

/-- The outer catch returns every error with `status: 400`. -/
def errResponse (e : HandlerError) : Response := { status := 400, body := .error e }

/-- Counts of the externally visible effects of one invocation: store
insert attempts, store label-update attempts, and OpenAI completion
calls. -/
structure Trace where
  insertAttempts : Nat
  updateAttempts : Nat
  openaiCalls : Nat
deriving DecidableEq, Repr

/-- Result of one invocation: the HTTP response, the table state after
the request, and the effect trace. -/
structure HResult where
  resp : Response
  db : List Task
  trace : Trace
deriving DecidableEq, Repr

/-- The row the handler inserts: `{title, description, completed: false,
user_id: user.id}`; the remaining columns take their migration defaults
(`task_id` generated, timestamps `now()`, everything else NULL). -/
def mkNewTask (env : Env) (uid : String) (body : ReqBody) : Task :=
  { task_id := env.freshId
    user_id := some uid
    title := body.title
    description := body.description
    image_url := none
    label := none
    due_date := none
    completed := false
    created_at := env.now
    updated_at := env.now }

/-- The `Deno.serve` handler of `create-task-with-ai/index.ts` for a POST
request, as a function of the request, the environment and the table
state.  Mirrors the source control flow: body parse, auth-header check,
identity lookup, insert (errors thrown to the outer catch), then the
best-effort enrichment block whose failures are all swallowed. -/
def handle (env : Env) (req : Request) (db : List Task) : HResult :=
  match req.body with
  | none => ⟨errResponse .bodyParse, db, ⟨0, 0, 0⟩⟩
  | some body =>
    match req.authHeader with
    | none => ⟨errResponse .noAuthHeader, db, ⟨0, 0, 0⟩⟩
    | some _ =>
      match env.authUser with
      | none => ⟨errResponse .noUserFound, db, ⟨0, 0, 0⟩⟩
      | some uid =>
        let t := mkNewTask env uid body
        match (if env.insertOk then dbInsert db t else .error .unavailable :
            Except StoreErr (List Task)) with
        | .error e => ⟨errResponse (.insertFailed e), db, ⟨1, 0, 0⟩⟩
        | .ok db1 =>
          if keyTruthy env.openaiApiKey && ENABLE_OPENAI env.enableOpenaiEnv then
            match env.openaiResult with
            | .error _ => ⟨okResponse t, db1, ⟨1, 0, 1⟩⟩
            | .ok content =>
              match suggestLabelFromContent content with
              | none => ⟨okResponse t, db1, ⟨1, 0, 1⟩⟩
              | some l =>
                match (if env.updateOk then dbUpdateLabel db1 t.task_id l
                    else .error .unavailable : Except StoreErr (Task × List Task)) with
                | .error _ => ⟨okResponse t, db1, ⟨1, 1, 1⟩⟩
                | .ok (t1, db2) => ⟨okResponse t1, db2, ⟨1, 1, 1⟩⟩
          else ⟨okResponse t, db1, ⟨1, 0, 0⟩⟩

/-- The first line of a string: its characters up to the first newline. -/
def firstLine (s : String) : String :=
  String.mk (s.data.takeWhile (fun c => c ≠ '\n'))

/-- Modelled from the spec: the Label Suggestion Client contract as
section 4.3 words it, which says the client parses the FIRST LINE of the
returned completion text, normalizing to lower case and trimming
whitespace, and validates it against the five labels.  Kept separate from
`suggestLabelFromContent` (the code's behaviour) for comparison. -/
def specSuggestFirstLine (content : String) : Option String :=
  if validLabels.contains (jsTrim (jsToLower (firstLine content))) then
    some (jsTrim (jsToLower (firstLine content)))
  else none

/-- Enrichment succeeding end to end for a created task `t` over table
state `db1`: the completion call returns content whose normalization is a
valid label, the update transport is up, and the label update succeeds. -/
def enrichSucceeds (env : Env) (t : Task) (db1 : List Task) : Prop :=
  ∃ c l t1 db2, env.openaiResult = .ok c ∧
    suggestLabelFromContent c = some l ∧
    env.updateOk = true ∧
    dbUpdateLabel db1 t.task_id l = .ok (t1, db2)

/-! ## Helper lemmas about the store operations -/

/-- A successful insert appends the row, and certifies that the title was
present and the generated id was fresh. -/
theorem dbInsert_ok_iff (db : List Task) (t : Task) (db1 : List Task)
    (h : dbInsert db t = .ok db1) :
    db1 = db ++ [t] ∧ t.title ≠ none ∧
      db.any (fun u => u.task_id == t.task_id) = false := by
  unfold dbInsert at h
  split_ifs at h with h1 h2 h3
  · refine ⟨(Except.ok.inj h).symm, h1, ?_⟩
    simpa using h3

/-- Looking up a freshly appended row by its id finds it, provided no
earlier row carries the same id. -/
theorem find_appended (db : List Task) (t : Task)
    (hfresh : db.any (fun u => u.task_id == t.task_id) = false) :
    (db ++ [t]).find? (fun u => u.task_id == t.task_id) = some t := by
  induction db with
  | nil => simp [List.find?]
  | cons x xs ih =>
    simp only [List.any_cons, Bool.or_eq_false_iff] at hfresh
    simp only [List.cons_append, List.find?_cons, hfresh.1]
    exact ih hfresh.2

end TaskApp

namespace TaskApp

/-- A successful label update certifies the label passed the check
constraint, and returns the found row with only its label changed,
together with the table where all rows of that id are so updated. -/
theorem dbUpdateLabel_ok (db : List Task) (id : Nat) (l : String) (t1 : Task)
    (db2 : List Task) (h : dbUpdateLabel db id l = .ok (t1, db2)) :
    labelCheckOk (some l) = true ∧
    ∃ t, db.find? (fun u => u.task_id == id) = some t ∧
      t1 = { t with label := some l } ∧
      db2 = db.map (fun u => if u.task_id == id then t1 else u) := by
  unfold dbUpdateLabel at h
  split_ifs at h with h1
  cases hf : db.find? (fun u => u.task_id == id) with
  | none => rw [hf] at h; simp at h
  | some t =>
    rw [hf] at h
    injection h with hp
    injection hp with e1 e2
    subst e1
    subst e2
    exact ⟨h1, t, rfl, rfl, rfl⟩

/-- A per-id row rewrite leaves a table untouched when no row carries
that id. -/
theorem map_unmatched (db : List Task) (id : Nat) (t1 : Task)
    (h : db.any (fun u => u.task_id == id) = false) :
    db.map (fun u => if u.task_id == id then t1 else u) = db := by
  induction db with
  | nil => rfl
  | cons x xs ih =>
    simp only [List.any_cons, Bool.or_eq_false_iff] at h
    rw [List.map_cons, if_neg (by simp [h.1]), ih h.2]

/-- Updating the label of a freshly appended row: the check constraint
holds, the row is found, only its label changes, and the earlier rows are
untouched. -/
theorem dbUpdateLabel_fresh (db : List Task) (t : Task) (l : String)
    (hl : labelCheckOk (some l) = true)
    (hfresh : db.any (fun u => u.task_id == t.task_id) = false) :
    dbUpdateLabel (db ++ [t]) t.task_id l =
      .ok ({ t with label := some l }, db ++ [{ t with label := some l }]) := by
  unfold dbUpdateLabel
  rw [if_neg (by simp [hl]), find_appended db t hfresh]
  simp only [List.map_append, List.map_cons, List.map_nil]
  rw [map_unmatched db t.task_id _ hfresh]
  simp

/-- After a per-id rewrite put `t1` (which itself carries the id) at the
found position, looking the id up again finds `t1`. -/
theorem find_after_update (db : List Task) (id : Nat) (t t1 : Task)
    (hfind : db.find? (fun u => u.task_id == id) = some t)
    (ht1 : (t1.task_id == id) = true) :
    (db.map (fun u => if u.task_id == id then t1 else u)).find?
        (fun u => u.task_id == id) = some t1 := by
  induction db with
  | nil => simp at hfind
  | cons x xs ih =>
    rw [List.map_cons]
    cases hx : x.task_id == id with
    | true =>
      rw [if_pos rfl]
      exact List.find?_cons_of_pos _ ht1
    | false =>
      rw [if_neg (by simp), List.find?_cons_of_neg _ (by simp [hx])]
      rw [List.find?_cons_of_neg _ (by simp [hx])] at hfind
      exact ih hfind

/-- A per-id rewrite to a row that itself carries the id is idempotent on
the table. -/
theorem map_update_idem (db : List Task) (id : Nat) (t1 : Task)
    (ht1 : (t1.task_id == id) = true) :
    (db.map (fun u => if u.task_id == id then t1 else u)).map
        (fun u => if u.task_id == id then t1 else u) =
      db.map (fun u => if u.task_id == id then t1 else u) := by
  induction db with
  | nil => rfl
  | cons x xs ih =>
    rw [List.map_cons]
    cases hx : x.task_id == id with
    | true =>
      rw [if_pos rfl, List.map_cons, if_pos ht1, ih]
    | false =>
      rw [if_neg (by simp), List.map_cons,
        if_neg (by intro hc; rw [hx] at hc; exact absurd hc (by decide)), ih]

/-- Once past the body, header, identity and insert steps, the handler is
exactly the best-effort enrichment phase over the table that now contains
the inserted row. -/
theorem handle_after_insert (env : Env) (body : ReqBody) (a uid : String)
    (db db1 : List Task) (hu : env.authUser = some uid) (hins : env.insertOk = true)
    (hok : dbInsert db (mkNewTask env uid body) = .ok db1) :
    handle env ⟨some body, some a⟩ db =
      (if keyTruthy env.openaiApiKey && ENABLE_OPENAI env.enableOpenaiEnv then
        match env.openaiResult with
        | .error _ => ⟨okResponse (mkNewTask env uid body), db1, ⟨1, 0, 1⟩⟩
        | .ok content =>
          match suggestLabelFromContent content with
          | none => ⟨okResponse (mkNewTask env uid body), db1, ⟨1, 0, 1⟩⟩
          | some l =>
            match (if env.updateOk then
                dbUpdateLabel db1 (mkNewTask env uid body).task_id l
              else .error .unavailable : Except StoreErr (Task × List Task)) with
            | .error _ => ⟨okResponse (mkNewTask env uid body), db1, ⟨1, 1, 1⟩⟩
            | .ok (t1, db2) => ⟨okResponse t1, db2, ⟨1, 1, 1⟩⟩
      else ⟨okResponse (mkNewTask env uid body), db1, ⟨1, 0, 0⟩⟩) := by
  obtain ⟨key, een, au, oai, ins, upd, n, fid⟩ := env
  replace hu : au = some uid := hu
  replace hins : ins = true := hins
  subst hu hins
  simp only [handle, hok]
  simp

/-! ## Claims about the orchestrator -/

/-- Claim C10: the request body is parsed before the credential check.  A
request whose body is not valid JSON fails with the body-parse error and
performs no store writes, whether or not an Authorization header is
present; and the missing-credential outcome is reachable only for
requests whose body parses. -/
theorem body_parsed_before_credential (env : Env) (req : Request) (db : List Task) :
    (req.body = none →
      handle env req db = ⟨errResponse .bodyParse, db, ⟨0, 0, 0⟩⟩) ∧
    ((handle env req db).resp.body = .error .noAuthHeader → req.body ≠ none) := by
  obtain ⟨b, a⟩ := req
  constructor
  · rintro rfl
    rfl
  · intro h hb
    cases b with
    | none => simp [handle, errResponse] at h
    | some body => exact Option.some_ne_none body hb

/-- Witness for C10 at a concrete request with an Authorization header
but an unparseable body. -/
theorem body_parsed_before_credential_witness :
    handle ⟨some "k", none, some "u1", .error (), true, true, 7, 1⟩
        ⟨none, some "Bearer b"⟩ [] =
      ⟨errResponse .bodyParse, [], ⟨0, 0, 0⟩⟩ :=
  (body_parsed_before_credential
    ⟨some "k", none, some "u1", .error (), true, true, 7, 1⟩
    ⟨none, some "Bearer b"⟩ []).1 rfl

/-- Claim C3 counterexample: a request with no Authorization header whose
body is not valid JSON fails with the body-parse error, not with the
missing-credential error, so the claim as stated (every credential-less
request fails with MissingCredential) is false. -/
theorem missing_credential_counterexample :
    (handle ⟨some "k", none, some "u1", .error (), true, true, 7, 1⟩
        ⟨none, none⟩ []).resp = errResponse .bodyParse ∧
    HandlerError.bodyParse ≠ HandlerError.noAuthHeader := by
  exact ⟨rfl, by decide⟩

/-- Claim C3 (amended): for every request whose body parses and whose
Authorization header is absent, the handler fails with the
missing-credential error and performs no store writes. -/
theorem missing_credential_fails_fast (env : Env) (req : Request) (db : List Task)
    (body : ReqBody) (hb : req.body = some body) (ha : req.authHeader = none) :
    handle env req db = ⟨errResponse .noAuthHeader, db, ⟨0, 0, 0⟩⟩ := by
  obtain ⟨b, a⟩ := req
  subst hb
  subst ha
  rfl

/-- Witness for C3 (amended) at a concrete header-less request. -/
theorem missing_credential_fails_fast_witness :
    handle ⟨some "k", none, some "u1", .error (), true, true, 7, 1⟩
        ⟨some ⟨some "t", none⟩, none⟩ [] =
      ⟨errResponse .noAuthHeader, [], ⟨0, 0, 0⟩⟩ :=
  missing_credential_fails_fast
    ⟨some "k", none, some "u1", .error (), true, true, 7, 1⟩
    ⟨some ⟨some "t", none⟩, none⟩ [] ⟨some "t", none⟩ rfl rfl

/-- Claim C7 counterexample: a request whose title is the EMPTY STRING is
not rejected — the insert passes the NOT NULL constraint, the request
succeeds with status 200 and the empty-titled task is persisted,
contradicting the claim that an empty title fails the create with a
constraint violation.  (Enrichment is disabled in this environment so
the outcome depends only on the insert.) -/
theorem empty_title_accepted_counterexample :
    (handle ⟨some "k", some "false", some "u1", .error (), true, true, 7, 1⟩
        ⟨some ⟨some "", none⟩, some "Bearer b"⟩ []) =
      ⟨okResponse ⟨1, some "u1", some "", none, none, none, none, false, 7, 7⟩,
        [⟨1, some "u1", some "", none, none, none, none, false, 7, 7⟩],
        ⟨1, 0, 0⟩⟩ := by
  rfl

/-- Claim C7 (amended): for every creation request whose title is ABSENT,
the insert fails with the not-null constraint violation, the whole
request fails with status 400, and no task is persisted; an empty-string
title, however, is accepted by the store. -/
theorem missing_title_fails (env : Env) (req : Request) (db : List Task)
    (body : ReqBody) (a uid : String)
    (hb : req.body = some body) (ht : body.title = none)
    (ha : req.authHeader = some a) (hu : env.authUser = some uid)
    (hins : env.insertOk = true) :
    handle env req db = ⟨errResponse (.insertFailed .notNullViolation), db, ⟨1, 0, 0⟩⟩ := by
  obtain ⟨rb, rh⟩ := req
  obtain ⟨key, een, au, oai, ins, upd, n, fid⟩ := env
  replace hb : rb = some body := hb
  replace ha : rh = some a := ha
  replace hu : au = some uid := hu
  replace hins : ins = true := hins
  subst hb ha hu hins
  simp [handle, dbInsert, mkNewTask, ht, errResponse]

/-- Witness for C7 (amended): a concrete valid request whose body has no
title field fails with the not-null violation and writes nothing. -/
theorem missing_title_fails_witness :
    handle ⟨some "k", none, some "u1", .error (), true, true, 7, 1⟩
        ⟨some ⟨none, some "d"⟩, some "Bearer b"⟩ [] =
      ⟨errResponse (.insertFailed .notNullViolation), [], ⟨1, 0, 0⟩⟩ :=
  missing_title_fails ⟨some "k", none, some "u1", .error (), true, true, 7, 1⟩
    ⟨some ⟨none, some "d"⟩, some "Bearer b"⟩ [] ⟨none, some "d"⟩ "Bearer b" "u1"
    rfl rfl rfl rfl rfl

/-- Claim C8: when enrichment is disabled by the configuration switch
(the ENABLE_OPENAI variable set to the string false), the OpenAI client
is never invoked (zero completion calls in the trace) and the created
task is returned with no label. -/
theorem enrichment_disabled_no_call (env : Env) (req : Request) (db db1 : List Task)
    (body : ReqBody) (a uid : String)
    (hb : req.body = some body) (ha : req.authHeader = some a)
    (hu : env.authUser = some uid) (hins : env.insertOk = true)
    (hdis : env.enableOpenaiEnv = some "false")
    (hok : dbInsert db (mkNewTask env uid body) = .ok db1) :
    handle env req db = ⟨okResponse (mkNewTask env uid body), db1, ⟨1, 0, 0⟩⟩ ∧
    (mkNewTask env uid body).label = none := by
  obtain ⟨rb, rh⟩ := req
  obtain ⟨key, een, au, oai, ins, upd, n, fid⟩ := env
  replace hb : rb = some body := hb
  replace ha : rh = some a := ha
  replace hu : au = some uid := hu
  replace hins : ins = true := hins
  replace hdis : een = some "false" := hdis
  subst hb ha hu hins hdis
  refine ⟨?_, rfl⟩
  have hoff : ENABLE_OPENAI (some "false") = false := rfl
  simp [handle, hok, hoff]

/-- Witness for C8 at a concrete disabled environment. -/
theorem enrichment_disabled_no_call_witness :
    handle ⟨some "k", some "false", some "u1", .ok (some "work"), true, true, 7, 1⟩
        ⟨some ⟨some "t", none⟩, some "Bearer b"⟩ [] =
      ⟨okResponse ⟨1, some "u1", some "t", none, none, none, none, false, 7, 7⟩,
        [⟨1, some "u1", some "t", none, none, none, none, false, 7, 7⟩],
        ⟨1, 0, 0⟩⟩ :=
  (enrichment_disabled_no_call
    ⟨some "k", some "false", some "u1", .ok (some "work"), true, true, 7, 1⟩
    ⟨some ⟨some "t", none⟩, some "Bearer b"⟩ []
    [⟨1, some "u1", some "t", none, none, none, none, false, 7, 7⟩]
    ⟨some "t", none⟩ "Bearer b" "u1" rfl rfl rfl rfl rfl rfl).1

/-- Claim C2 counterexample: a request whose credential is present and
accepted (the identity verifier yields a user) but whose body carries no
title ends with NO task row inserted — the table stays empty and the
request fails — refuting the claim that every credential-valid request
inserts exactly one row. -/
theorem create_exactly_one_counterexample :
    (handle ⟨some "k", none, some "u1", .error (), true, true, 7, 1⟩
        ⟨some ⟨none, none⟩, some "Bearer b"⟩ []) =
      ⟨errResponse (.insertFailed .notNullViolation), [], ⟨1, 0, 0⟩⟩ := by
  rfl

/-- Claim C2 (amended): for every request with an accepted credential
WHOSE STORE INSERT SUCCEEDS, exactly one task row is inserted (one
insert attempt, table grows by exactly one row), the new row is owned by
the authenticated user, its completed flag is false, and its label is
unset at the moment of creation. -/
theorem create_inserts_exactly_one (env : Env) (req : Request) (db db1 : List Task)
    (body : ReqBody) (a uid : String)
    (hb : req.body = some body) (ha : req.authHeader = some a)
    (hu : env.authUser = some uid) (hins : env.insertOk = true)
    (hok : dbInsert db (mkNewTask env uid body) = .ok db1) :
    (handle env req db).db.length = db.length + 1 ∧
    (handle env req db).trace.insertAttempts = 1 ∧
    db1 = db ++ [mkNewTask env uid body] ∧
    (mkNewTask env uid body).user_id = some uid ∧
    (mkNewTask env uid body).completed = false ∧
    (mkNewTask env uid body).label = none := by
  obtain ⟨hdb1, -, -⟩ := dbInsert_ok_iff db _ db1 hok
  have hlen : db1.length = db.length + 1 := by rw [hdb1]; simp
  obtain ⟨rb, rh⟩ := req
  replace hb : rb = some body := hb
  replace ha : rh = some a := ha
  subst hb ha
  rw [handle_after_insert env body a uid db db1 hu hins hok]
  refine ⟨?_, ?_, hdb1, rfl, rfl, rfl⟩
  · split
    · split
      · exact hlen
      · split
        · exact hlen
        · split
          · exact hlen
          · next t1 db2 heq =>
            cases hupd : env.updateOk with
            | false => rw [hupd] at heq; simp at heq
            | true =>
              rw [hupd] at heq
              simp only [if_true] at heq
              obtain ⟨-, t, -, -, hdb2⟩ :=
                dbUpdateLabel_ok db1 (mkNewTask env uid body).task_id _ t1 db2 heq
              simpa [hdb2] using hlen
    · exact hlen
  · split
    · split
      · rfl
      · split
        · rfl
        · split
          · rfl
          · rfl
    · rfl

/-- Witness for C2 (amended) at a concrete valid request whose insert
succeeds. -/
theorem create_inserts_exactly_one_witness :
    (handle ⟨some "k", some "false", some "u1", .error (), true, true, 7, 1⟩
        ⟨some ⟨some "t", none⟩, some "Bearer b"⟩ []).db.length = 1 :=
  (create_inserts_exactly_one
    ⟨some "k", some "false", some "u1", .error (), true, true, 7, 1⟩
    ⟨some ⟨some "t", none⟩, some "Bearer b"⟩ []
    [⟨1, some "u1", some "t", none, none, none, none, false, 7, 7⟩]
    ⟨some "t", none⟩ "Bearer b" "u1" rfl rfl rfl rfl rfl).1

/-- Claim C6 counterexample: a request whose credential is rejected by
the identity verifier is answered with status 400 — the same status as
an unrelated failure (an unparseable body) and not a 401-equivalent —
refuting the claim that the authentication failure is surfaced with a
status distinct from other failure statuses. -/
theorem unauthenticated_status_counterexample :
    (handle ⟨some "k", none, none, .error (), true, true, 7, 1⟩
        ⟨some ⟨some "t", none⟩, some "Bearer bad"⟩ []).resp =
      { status := 400, body := .error .noUserFound } ∧
    (handle ⟨some "k", none, none, .error (), true, true, 7, 1⟩
        ⟨none, some "Bearer bad"⟩ []).resp =
      { status := 400, body := .error .bodyParse } ∧
    (400 : Nat) ≠ 401 := by
  exact ⟨rfl, rfl, by decide⟩

/-- Claim C6 (amended): the two pre-creation authentication outcomes are
distinguished by their error payloads — an absent credential yields the
missing-credential error, a rejected credential the distinct
no-user-found error — but both are surfaced with the same status 400;
no dedicated 401 status exists. -/
theorem auth_errors_distinguished (env : Env) (req : Request) (db : List Task)
    (body : ReqBody) (a : String) :
    (req.body = some body → req.authHeader = none →
      (handle env req db).resp = errResponse .noAuthHeader) ∧
    (req.body = some body → req.authHeader = some a → env.authUser = none →
      (handle env req db).resp = errResponse .noUserFound) ∧
    HandlerError.noAuthHeader ≠ HandlerError.noUserFound ∧
    (errResponse .noAuthHeader).status = 400 ∧
    (errResponse .noUserFound).status = 400 := by
  refine ⟨?_, ?_, by decide, rfl, rfl⟩
  · intro hb ha
    obtain ⟨rb, rh⟩ := req
    replace hb : rb = some body := hb
    replace ha : rh = none := ha
    subst hb ha
    rfl
  · intro hb ha hu
    obtain ⟨rb, rh⟩ := req
    obtain ⟨key, een, au, oai, ins, upd, n, fid⟩ := env
    replace hb : rb = some body := hb
    replace ha : rh = some a := ha
    replace hu : au = none := hu
    subst hb ha hu
    rfl

/-- Witness for C6 (amended): a concrete rejected credential yields the
no-user-found error. -/
theorem auth_errors_distinguished_witness :
    (handle ⟨some "k", none, none, .error (), true, true, 7, 1⟩
        ⟨some ⟨some "t", none⟩, some "Bearer bad"⟩ []).resp =
      errResponse .noUserFound :=
  (auth_errors_distinguished ⟨some "k", none, none, .error (), true, true, 7, 1⟩
    ⟨some ⟨some "t", none⟩, some "Bearer bad"⟩ [] ⟨some "t", none⟩
    "Bearer bad").2.1 rfl rfl rfl

/-- Claim C1: enrichment is strictly best-effort.  Whenever the request
reaches a successful store insert, the handler answers with status 200
no matter how the enrichment phase turns out; and whenever enrichment
does not succeed end to end (completion call throwing, suggestion
disabled or invalid, or the label update failing), the response carries
the task exactly as created, without a label. -/
theorem enrichment_best_effort (env : Env) (req : Request) (db db1 : List Task)
    (body : ReqBody) (a uid : String)
    (hb : req.body = some body) (ha : req.authHeader = some a)
    (hu : env.authUser = some uid) (hins : env.insertOk = true)
    (hok : dbInsert db (mkNewTask env uid body) = .ok db1) :
    (handle env req db).resp.status = 200 ∧
    (¬ enrichSucceeds env (mkNewTask env uid body) db1 →
      (handle env req db).resp = okResponse (mkNewTask env uid body) ∧
      (mkNewTask env uid body).label = none) := by
  obtain ⟨rb, rh⟩ := req
  replace hb : rb = some body := hb
  replace ha : rh = some a := ha
  subst hb ha
  rw [handle_after_insert env body a uid db db1 hu hins hok]
  constructor
  · split
    · split
      · rfl
      · split
        · rfl
        · split
          · rfl
          · rfl
    · rfl
  · intro hne
    split
    · split
      · exact ⟨rfl, rfl⟩
      · next content hoai =>
        split
        · exact ⟨rfl, rfl⟩
        · next l hsug =>
          split
          · exact ⟨rfl, rfl⟩
          · next t1 db2 heq =>
            exfalso
            cases hupd : env.updateOk with
            | false => rw [hupd] at heq; simp at heq
            | true =>
              rw [hupd] at heq
              simp only [if_true] at heq
              exact hne ⟨content, l, t1, db2, hoai, hsug, hupd, heq⟩
    · exact ⟨rfl, rfl⟩

/-- Witness for C1: with the completion call throwing, a concrete valid
request is still answered with the task exactly as created. -/
theorem enrichment_best_effort_witness :
    (handle ⟨some "k", none, some "u1", .error (), true, true, 7, 1⟩
        ⟨some ⟨some "t", none⟩, some "Bearer b"⟩ []).resp =
      okResponse ⟨1, some "u1", some "t", none, none, none, none, false, 7, 7⟩ :=
  ((enrichment_best_effort ⟨some "k", none, some "u1", .error (), true, true, 7, 1⟩
    ⟨some ⟨some "t", none⟩, some "Bearer b"⟩ []
    [⟨1, some "u1", some "t", none, none, none, none, false, 7, 7⟩]
    ⟨some "t", none⟩ "Bearer b" "u1" rfl rfl rfl rfl rfl).2 (by
      rintro ⟨c, l, t1, db2, hc, -⟩
      exact Except.noConfusion hc)).1

/-- Claim C4: the suggestion output is normalized by lower-casing and
trimming, and a label is stored exactly when the normalized output is one
of the five labels: under enabled enrichment with completion content `c`
and an available update, the handler stores and returns the normalized
label when it is valid, and leaves the task label-less otherwise. -/
theorem label_normalized_and_validated (env : Env) (req : Request) (db db1 : List Task)
    (body : ReqBody) (a uid c : String)
    (hb : req.body = some body) (ha : req.authHeader = some a)
    (hu : env.authUser = some uid) (hins : env.insertOk = true)
    (hok : dbInsert db (mkNewTask env uid body) = .ok db1)
    (hkey : keyTruthy env.openaiApiKey = true)
    (hen : ENABLE_OPENAI env.enableOpenaiEnv = true)
    (hoai : env.openaiResult = .ok (some c))
    (hupd : env.updateOk = true) :
    (validLabels.contains (jsTrim (jsToLower c)) = true →
      handle env req db =
        ⟨okResponse { mkNewTask env uid body with label := some (jsTrim (jsToLower c)) },
          db ++ [{ mkNewTask env uid body with label := some (jsTrim (jsToLower c)) }],
          ⟨1, 1, 1⟩⟩) ∧
    (validLabels.contains (jsTrim (jsToLower c)) = false →
      handle env req db =
        ⟨okResponse (mkNewTask env uid body), db ++ [mkNewTask env uid body],
          ⟨1, 0, 1⟩⟩ ∧
      (mkNewTask env uid body).label = none) := by
  obtain ⟨hdb1, -, hfresh⟩ := dbInsert_ok_iff db _ db1 hok
  obtain ⟨rb, rh⟩ := req
  replace hb : rb = some body := hb
  replace ha : rh = some a := ha
  subst hb ha
  rw [handle_after_insert env body a uid db db1 hu hins hok]
  subst hdb1
  simp only [hkey, hen, hoai, hupd, Bool.and_self, if_true]
  have hdef : suggestLabelFromContent (some c) =
      if validLabels.contains (jsTrim (jsToLower c)) then
        some (jsTrim (jsToLower c))
      else none := rfl
  constructor
  · intro hc
    have hs : suggestLabelFromContent (some c) = some (jsTrim (jsToLower c)) := by
      rw [hdef, if_pos hc]
    have hul := dbUpdateLabel_fresh db (mkNewTask env uid body) (jsTrim (jsToLower c))
      hc hfresh
    simp only [hs, hul]
  · intro hc
    have hs : suggestLabelFromContent (some c) = none := by
      rw [hdef, if_neg (by rw [hc]; simp)]
    exact ⟨by simp only [hs], rfl⟩

/-- Witness for C4: with completion content of mixed case and trailing
whitespace the stored and returned label is the lower-cased trimmed
form, which for that content is one of the five labels. -/
theorem label_normalized_and_validated_witness :
    handle ⟨some "k", none, some "u1", .ok (some "Work "), true, true, 7, 1⟩
        ⟨some ⟨some "t", none⟩, some "Bearer b"⟩ [] =
      ⟨okResponse ⟨1, some "u1", some "t", none, none,
          some (jsTrim (jsToLower "Work ")), none, false, 7, 7⟩,
        [⟨1, some "u1", some "t", none, none,
          some (jsTrim (jsToLower "Work ")), none, false, 7, 7⟩], ⟨1, 1, 1⟩⟩ ∧
    jsTrim (jsToLower "Work ") = "work" :=
  ⟨(label_normalized_and_validated
      ⟨some "k", none, some "u1", .ok (some "Work "), true, true, 7, 1⟩
      ⟨some ⟨some "t", none⟩, some "Bearer b"⟩ []
      [⟨1, some "u1", some "t", none, none, none, none, false, 7, 7⟩]
      ⟨some "t", none⟩ "Bearer b" "u1" "Work "
      rfl rfl rfl rfl rfl rfl rfl rfl rfl).1 rfl, rfl⟩

/-- Claim C5 counterexample: a completion whose content's first line is
the valid label followed by a further line yields NO label from the
code, while the first-line rule the claim states would yield the label —
the code does not parse the first line. -/
theorem first_line_counterexample :
    suggestLabelFromContent (some "work\nextra") = none ∧
    specSuggestFirstLine "work\nextra" = some "work" := by
  exact ⟨rfl, rfl⟩

/-- Claim C5 (amended): the client normalizes the ENTIRE completion
content, not its first line: a label is produced exactly when the whole
content, lower-cased and trimmed, equals one of the five labels, so any
further non-whitespace lines defeat the match. -/
theorem suggest_matches_whole_content (c l : String) :
    suggestLabelFromContent (some c) = some l ↔
      (jsTrim (jsToLower c) = l ∧ validLabels.contains l = true) := by
  have hdef : suggestLabelFromContent (some c) =
      if validLabels.contains (jsTrim (jsToLower c)) then
        some (jsTrim (jsToLower c))
      else none := rfl
  rw [hdef]
  by_cases hc : validLabels.contains (jsTrim (jsToLower c)) = true
  · rw [if_pos hc]
    constructor
    · intro h
      exact ⟨Option.some.inj h, (Option.some.inj h) ▸ hc⟩
    · rintro ⟨rfl, -⟩
      rfl
  · rw [if_neg hc]
    constructor
    · intro h
      exact absurd h (by simp)
    · rintro ⟨rfl, hl⟩
      exact absurd hl hc

/-- Claim C9 counterexample: the label update leaves the update timestamp
exactly as it was — the updated row carries the original `updated_at`
value 3 (the migration installs no trigger and the update writes only
the label column), refuting the claim that `updateLabel` refreshes the
update timestamp. -/
theorem updateLabel_timestamp_counterexample :
    dbUpdateLabel [⟨1, some "u", some "t", none, none, none, none, false, 3, 3⟩]
        1 "work" =
      .ok (⟨1, some "u", some "t", none, none, some "work", none, false, 3, 3⟩,
        [⟨1, some "u", some "t", none, none, some "work", none, false, 3, 3⟩]) ∧
    (⟨1, some "u", some "t", none, none, some "work", none, false, 3, 3⟩ : Task).updated_at =
      (⟨1, some "u", some "t", none, none, none, none, false, 3, 3⟩ : Task).updated_at := by
  exact ⟨rfl, rfl⟩

/-- Claim C9 (amended): `updateLabel` sets the label field and leaves
every other field, INCLUDING the update timestamp, unchanged; it is
fully idempotent: a second update with the same label returns the
identical row and leaves the table identical. -/
theorem updateLabel_sets_label_idempotent (db db1 : List Task) (id : Nat)
    (l : String) (t1 : Task)
    (h : dbUpdateLabel db id l = .ok (t1, db1)) :
    t1.label = some l ∧
    (∃ t, db.find? (fun u => u.task_id == id) = some t ∧
      t1 = { t with label := some l }) ∧
    dbUpdateLabel db1 id l = .ok (t1, db1) := by
  obtain ⟨hl, t, hfind, ht1, hdb1⟩ := dbUpdateLabel_ok db id l t1 db1 h
  have hpt : (t.task_id == id) = true := by
    simpa using List.find?_some hfind
  have hpt1 : (t1.task_id == id) = true := by rw [ht1]; exact hpt
  have ht1fix : ({ t1 with label := some l } : Task) = t1 := by rw [ht1]
  refine ⟨by rw [ht1], ⟨t, hfind, ht1⟩, ?_⟩
  unfold dbUpdateLabel
  rw [if_neg (by simp [hl])]
  rw [hdb1]
  simp only [find_after_update db id t t1 hfind hpt1]
  rw [ht1fix]
  rw [map_update_idem db id t1 hpt1]

/-- Witness for C9 (amended): updating an already-updated concrete row
with the same label reproduces the identical row and table. -/
theorem updateLabel_sets_label_idempotent_witness :
    dbUpdateLabel
        [⟨1, some "u", some "t", none, none, some "work", none, false, 3, 3⟩]
        1 "work" =
      .ok (⟨1, some "u", some "t", none, none, some "work", none, false, 3, 3⟩,
        [⟨1, some "u", some "t", none, none, some "work", none, false, 3, 3⟩]) :=
  (updateLabel_sets_label_idempotent
    [⟨1, some "u", some "t", none, none, none, none, false, 3, 3⟩]
    [⟨1, some "u", some "t", none, none, some "work", none, false, 3, 3⟩]
    1 "work"
    ⟨1, some "u", some "t", none, none, some "work", none, false, 3, 3⟩
    rfl).2.2

end TaskApp
